import Mathlib

/-!
Shallow embedding of `src/message.py`, the header-decode and dispatch core of
the Connit tap-sensor decoder: the `Message` class (hex-string chunking, the
header fields `x`/`y`/`z`, `message_type`) and the static `factory` method.

The `Byte` class (`decoders/byte.py`) is imported by `message.py` but is not
part of this repository snapshot, so it is modelled from the spec (§3, §4.1).

Python exceptions are modelled explicitly: `ValueError` raised by `int(...)`
and the spec's `RangeError` raised by the ByteUnit constructor become
`Except.error` values, and the `IndexError` raised by `self._byte_array[0]`
on an empty array becomes `Option.none` in the header accessors.
-/

set_option autoImplicit false

namespace TapSensor

/-- Error outcomes of the decoding core.  `valueError` models Python's
`ValueError` raised by `int(s, base)` on an unparsable string; `rangeError`
models the spec's `RangeError` raised by the ByteUnit constructor. -/
inductive DecodeErr where
  | valueError
  | rangeError
deriving DecidableEq, Repr

/-- Modelled from the spec: the ByteUnit class (`decoders.byte.Byte`, imported
by `message.py` but not under `src/`).  Spec §3: an immutable value in
[0,255]. -/
structure Byte where
  value : Nat
deriving DecidableEq, Repr

/-- Modelled from the spec: §4.1 — a ByteUnit is constructed from an integer
0–255 and fails with `RangeError` outside that range.  (`value` is a `Nat`
because every value the chunker passes comes from `int(s, 16)`, which is
non-negative.) -/
def Byte.mk? (v : Nat) : Except DecodeErr Byte :=
  if v ≤ 255 then .ok ⟨v⟩ else .error .rangeError

/-- Modelled from the spec: §3 — `high_nibble` is bits 7–4 of the value, as a
4-bit unsigned value.  (The inspected Python class stores the nibble as a
binary string and `message.py` reads it back with `int(·, 2)`; that parse is
the identity on the numeric value, so the nibble is embedded as its value.) -/
def Byte.high_nibble (b : Byte) : Nat := b.value / 16

/-- Modelled from the spec: §3 — `low_nibble` is bits 3–0 of the value. -/
def Byte.low_nibble (b : Byte) : Nat := b.value % 16

/-- Value of one hexadecimal character as accepted by Python's `int(s, 16)`:
decimal digits and letters of either case. -/
def hexVal? (c : Char) : Option Nat :=
  if 48 ≤ c.toNat ∧ c.toNat ≤ 57 then some (c.toNat - 48)
  else if 97 ≤ c.toNat ∧ c.toNat ≤ 102 then some (c.toNat - 87)
  else if 65 ≤ c.toNat ∧ c.toNat ≤ 70 then some (c.toNat - 55)
  else none

/-- Accumulator loop of base-16 parsing: fails on the first non-hex
character. -/
def parseHexAux : List Char → Nat → Option Nat
  | [], acc => some acc
  | c :: rest, acc =>
    match hexVal? c with
    | none => none
    | some v => parseHexAux rest (acc * 16 + v)

/-- `int(s, 16)` on a chunk of the raw string: `ValueError` when the chunk is
empty or holds a non-hexadecimal character.  (Python additionally tolerates
surrounding whitespace and a sign; a chunk of the plain hex strings quantified
over in the properties below never contains those, and on the concrete inputs
evaluated here the behaviours coincide.) -/
def intHex (l : List Char) : Except DecodeErr Nat :=
  match l with
  | [] => .error .valueError
  | _ :: _ =>
    match parseHexAux l 0 with
    | none => .error .valueError
    | some v => .ok v

/-- `Message._convert_to_bytes`: `while seq: yield Byte(int(seq[:2], 16));
seq = seq[2:]`.  The string is consumed two characters at a time; a trailing
odd character forms a one-character chunk (`seq[:2]` of a one-character string
is that string).  Exception propagation of the generator, consumed eagerly by
`list(...)`, is the unrolled `Except` bind. -/
def convertToBytes : List Char → Except DecodeErr (List Byte)
  | [] => .ok []
  | [c] =>
    match intHex [c] with
    | .error e => .error e
    | .ok v =>
      match Byte.mk? v with
      | .error e => .error e
      | .ok b => .ok [b]
  | c₁ :: c₂ :: rest =>
    match intHex [c₁, c₂] with
    | .error e => .error e
    | .ok v =>
      match Byte.mk? v with
      | .error e => .error e
      | .ok b =>
        match convertToBytes rest with
        | .error e => .error e
        | .ok bs => .ok (b :: bs)

/-- The `Message` object: its only state is `self._byte_array`, set once in
`__init__`. -/
structure Message where
  byte_array : List Byte
deriving DecidableEq, Repr

/-- `Message.__init__`: `self._byte_array = list(self._convert_to_bytes(raw_message))`.
The generator is consumed eagerly, so any `ValueError`/`RangeError` surfaces
at construction time. -/
def Message.mk? (raw_message : String) : Except DecodeErr Message :=
  match convertToBytes raw_message.data with
  | .error e => .error e
  | .ok bs => .ok ⟨bs⟩

/-- Property `Message.x`: `int(self._byte_array[0].high_nibble, 2)`.
Indexing an empty byte array raises `IndexError`, modelled as `none`. -/
def Message.x (m : Message) : Option Nat :=
  m.byte_array.head?.map (fun b => b.high_nibble)

/-- Property `Message.y`: `int(self._byte_array[0].low_nibble, 2) / 2`.
The source is Python 2, where `/` on non-negative ints is floor division,
matching `Nat` division. -/
def Message.y (m : Message) : Option Nat :=
  m.byte_array.head?.map (fun b => b.low_nibble / 2)

/-- Property `Message.z`: `False` if the low nibble is even, `True`
otherwise. -/
def Message.z (m : Message) : Option Bool :=
  m.byte_array.head?.map (fun b => if b.low_nibble % 2 = 0 then false else true)

/-- Property `Message.message_type`: the if/elif chain over `self.x`. -/
def Message.message_type (m : Message) : Option String :=
  m.x.map (fun xv =>
    if xv = 0 then "AppInit"
    else if xv = 1 then "AppData"
    else if xv = 2 then "Event"
    else if xv = 3 then "Config"
    else "Unknown")

/-- The decoder subclasses imported inside `Message.factory`.  Their
internals are external collaborators (spec §1): the factory only selects one
and passes it `raw_message`, so they are modelled as tags. -/
inductive Decoder where
  | LivePulseBlueAppInit
  | LiveBlackOneAppInit
  | LivePulseBlueAppData
  | LivePulseBlueEvent
  | LiveBlackOneEvent
  | LiveBluePulseConfig
  | LiveBlackOneConfig
deriving DecidableEq, Repr

/-- The possible outcomes of `Message.factory`: a constructed decoder object;
Python's implicit `return None` (every `pass` branch, and the fall-through
for an unmatched `message_flag` or a non-zero `proto_ver`, runs off the end
of the function); or an uncaught `ValueError` from `int(raw_message[:1])`. -/
inductive FactoryResult where
  | decoder (d : Decoder) (raw_message : String)
  | noneReturned
  | valueErrorRaised
deriving DecidableEq, Repr

/-- `int(raw_message[:1])` in `Message.factory`: the first character of the
raw string parsed as a DECIMAL integer; an empty slice or any character
outside 0–9 (hex letters included) raises `ValueError`. -/
def decFlag? (raw_message : String) : Option Nat :=
  match raw_message.data with
  | [] => none
  | c :: _ => if 48 ≤ c.toNat ∧ c.toNat ≤ 57 then some (c.toNat - 48) else none

/-- `Message.factory`, transcribed branch by branch from the source: the
version gate, the decimal first-character discriminator `message_flag`, and
the per-category device-type dispatch.  Each constructed decoder is returned
with the `raw_message` it was given. -/
def factory (raw_message device_type : String) (proto_ver : Int) : FactoryResult :=
  if proto_ver = 0 then
    match decFlag? raw_message with
    | none => .valueErrorRaised
    | some message_flag =>
      if message_flag = 0 then
        if device_type = "LPB" then .decoder .LivePulseBlueAppInit raw_message
        else if device_type = "LBO" then .decoder .LiveBlackOneAppInit raw_message
        else .noneReturned
      else if message_flag = 1 then
        .decoder .LivePulseBlueAppData raw_message
      else if message_flag = 2 then
        if device_type = "LPB" then .decoder .LivePulseBlueEvent raw_message
        else if device_type = "LBO" then .decoder .LiveBlackOneEvent raw_message
        else .noneReturned
      else if message_flag = 3 then
        if device_type = "LPB" then .decoder .LiveBluePulseConfig raw_message
        else if device_type = "LBO" then .decoder .LiveBlackOneConfig raw_message
        else .noneReturned
      else .noneReturned
  else .noneReturned

/-- Modelled from the spec: §8 round-trip — render a nibble value as one hex
character, digits first and then uppercase letters as in the spec's worked
examples ("30AB", "10FF"). -/
def hexDigitChar : Nat → Char
  | 0 => '0' | 1 => '1' | 2 => '2' | 3 => '3' | 4 => '4'
  | 5 => '5' | 6 => '6' | 7 => '7' | 8 => '8' | 9 => '9'
  | 10 => 'A' | 11 => 'B' | 12 => 'C' | 13 => 'D' | 14 => 'E'
  | 15 => 'F' | _ => '?'

/-- Modelled from the spec: §8 — reassemble a byte sequence into hex text,
two hex digits per unit, most-significant first, in order. -/
def reassemble (bs : List Byte) : List Char :=
  (bs.map (fun b => [hexDigitChar b.high_nibble, hexDigitChar b.low_nibble])).flatten

/-- The sixteen characters of the spec's canonical (uppercase) hex
alphabet. -/
def upperHexDigits : List Char :=
  ['0', '1', '2', '3', '4', '5', '6', '7', '8', '9', 'A', 'B', 'C', 'D', 'E', 'F']

/-! ### Helper lemmas -/

/-- A successful `Byte.mk?` returns the wrapped value, which is at most 255. -/
theorem Byte.mk?_ok {v : Nat} {b : Byte} (h : Byte.mk? v = Except.ok b) :
    b = ⟨v⟩ ∧ v ≤ 255 := by
  unfold Byte.mk? at h
  split at h
  · exact ⟨(Except.ok.injEq _ _).mp h |>.symm, by assumption⟩
  · exact absurd h (by simp)

/-- A hex character's parsed value is a nibble. -/
theorem hexVal?_le {c : Char} {v : Nat} (h : hexVal? c = some v) : v ≤ 15 := by
  unfold hexVal? at h
  split at h
  · simp only [Option.some.injEq] at h; omega
  · split at h
    · simp only [Option.some.injEq] at h; omega
    · split at h
      · simp only [Option.some.injEq] at h; omega
      · exact absurd h (by simp)

/-- Every byte produced by the chunker passed the `Byte.mk?` range check. -/
theorem convertToBytes_value_le :
    ∀ (l : List Char) (bs : List Byte), convertToBytes l = Except.ok bs →
      ∀ b ∈ bs, b.value ≤ 255
  | [], bs, h => by
    simp only [convertToBytes, Except.ok.injEq] at h
    subst h; intro b hb; cases hb
  | [c], bs, h => by
    simp only [convertToBytes] at h
    cases hv : intHex [c] with
    | error e => simp only [hv] at h; exact Except.noConfusion h
    | ok v =>
      simp only [hv] at h
      cases hb : Byte.mk? v with
      | error e => simp only [hb] at h; exact Except.noConfusion h
      | ok b =>
        simp only [hb] at h
        obtain ⟨rfl, hle⟩ := Byte.mk?_ok hb
        simp only [Except.ok.injEq] at h
        subst h
        intro b hb
        simp only [List.mem_singleton] at hb
        subst hb; exact hle
  | c₁ :: c₂ :: rest, bs, h => by
    simp only [convertToBytes] at h
    cases hv : intHex [c₁, c₂] with
    | error e => simp only [hv] at h; exact Except.noConfusion h
    | ok v =>
      simp only [hv] at h
      cases hb : Byte.mk? v with
      | error e => simp only [hb] at h; exact Except.noConfusion h
      | ok b =>
        simp only [hb] at h
        cases hc : convertToBytes rest with
        | error e => simp only [hc] at h; exact Except.noConfusion h
        | ok bs₀ =>
          simp only [hc] at h
          obtain ⟨rfl, hle⟩ := Byte.mk?_ok hb
          simp only [Except.ok.injEq] at h
          subst h
          intro b hb
          rcases List.mem_cons.mp hb with rfl | hmem
          · exact hle
          · exact convertToBytes_value_le rest bs₀ hc b hmem

/-- A character of the uppercase hex alphabet parses to a nibble that renders
back to the same character. -/
theorem hexVal?_upper {c : Char} (h : c ∈ upperHexDigits) :
    ∃ v, hexVal? c = some v ∧ v ≤ 15 ∧ hexDigitChar v = c := by
  simp only [upperHexDigits, List.mem_cons, List.not_mem_nil, or_false] at h
  rcases h with rfl | rfl | rfl | rfl | rfl | rfl | rfl | rfl | rfl | rfl | rfl | rfl | rfl
    | rfl | rfl | rfl
  · exact ⟨0, by decide⟩
  · exact ⟨1, by decide⟩
  · exact ⟨2, by decide⟩
  · exact ⟨3, by decide⟩
  · exact ⟨4, by decide⟩
  · exact ⟨5, by decide⟩
  · exact ⟨6, by decide⟩
  · exact ⟨7, by decide⟩
  · exact ⟨8, by decide⟩
  · exact ⟨9, by decide⟩
  · exact ⟨10, by decide⟩
  · exact ⟨11, by decide⟩
  · exact ⟨12, by decide⟩
  · exact ⟨13, by decide⟩
  · exact ⟨14, by decide⟩
  · exact ⟨15, by decide⟩

/-- On an even-length string of valid hex characters the chunker succeeds. -/
theorem convertToBytes_total :
    ∀ (l : List Char), l.length % 2 = 0 → (∀ c ∈ l, (hexVal? c).isSome) →
      ∃ bs, convertToBytes l = Except.ok bs
  | [], _, _ => ⟨[], rfl⟩
  | [c], h1, _ => by simp at h1
  | c₁ :: c₂ :: rest, h1, h2 => by
    obtain ⟨v₁, hv₁⟩ := Option.isSome_iff_exists.mp (h2 c₁ (by simp))
    obtain ⟨v₂, hv₂⟩ := Option.isSome_iff_exists.mp (h2 c₂ (by simp))
    have hb₁ := hexVal?_le hv₁
    have hb₂ := hexVal?_le hv₂
    obtain ⟨bs, hbs⟩ := convertToBytes_total rest
      (by simp only [List.length_cons] at h1; omega)
      (fun c hc => h2 c (by simp [hc]))
    refine ⟨⟨(0 * 16 + v₁) * 16 + v₂⟩ :: bs, ?_⟩
    simp only [convertToBytes, intHex, parseHexAux, hv₁, hv₂, hbs]
    rw [Byte.mk?, if_pos (by omega)]

/-- Unfolding of `reassemble` on a cons cell. -/
theorem reassemble_cons (b : Byte) (bs : List Byte) :
    reassemble (b :: bs) =
      hexDigitChar b.high_nibble :: hexDigitChar b.low_nibble :: reassemble bs := by
  simp [reassemble]

/-! ### Claim theorems -/

/-- C1: the claim fails on the code.  The factory's discriminator is
`int(raw_message[:1])`, the first character read as a DECIMAL digit, not the
Frame's `x` field.  On raw = "A0" the factory raises `ValueError`, while the
Frame is well defined with `x = 10` and `message_type = "Unknown"`: the
discriminator and `x` disagree (one is undefined where the other is 10). -/
theorem factory_flag_diverges_from_x :
    factory "A0" "LPB" 0 = FactoryResult.valueErrorRaised ∧
    Message.mk? "A0" = Except.ok ⟨[⟨160⟩]⟩ ∧
    Message.x ⟨[⟨160⟩]⟩ = some 10 ∧
    Message.message_type ⟨[⟨160⟩]⟩ = some "Unknown" :=
  ⟨rfl, rfl, rfl, rfl⟩

/-- C2: the claim fails on the code.  There is no `UnknownDeviceTypeError`:
for category 1 the factory ignores `device_type` entirely and hands "LBO"
(and any other identifier) the PulseBlue AppData decoder, and for categories
0, 2 and 3 with an unregistered device type the `pass` branches silently
return `None`. -/
theorem factory_unknown_device_silent :
    factory "10FF" "LBO" 0 = FactoryResult.decoder Decoder.LivePulseBlueAppData "10FF" ∧
    factory "00FF" "XYZ" 0 = FactoryResult.noneReturned ∧
    factory "20FF" "XYZ" 0 = FactoryResult.noneReturned ∧
    factory "30FF" "XYZ" 0 = FactoryResult.noneReturned :=
  ⟨rfl, rfl, rfl, rfl⟩

/-- C3: the claim fails on the code.  For every non-zero protocol version the
factory's `else` branch is a bare `pass`, so it silently returns `None`
instead of failing with `UnsupportedVersionError`, for every raw message and
device type. -/
theorem factory_unsupported_version_silent (raw_message device_type : String)
    (proto_ver : Int) (h : proto_ver ≠ 0) :
    factory raw_message device_type proto_ver = FactoryResult.noneReturned := by
  simp [factory, h]

/-- Witness for C3 at the spec's scenario raw = "1F", proto_ver = 1. -/
theorem factory_unsupported_version_silent_witness :
    factory "1F" "LPB" 1 = FactoryResult.noneReturned :=
  factory_unsupported_version_silent "1F" "LPB" 1 (by decide)

/-- C4: the claim fails on the code.  There is no `FormatError` anywhere: on
the odd-length raw = "abc" the chunker happily parses "ab" and then the
single trailing character "c" (`int("c", 16) = 12`), so Message construction
SUCCEEDS with two byte units instead of failing before any byte is
constructed. -/
theorem odd_length_constructs_bytes :
    convertToBytes "abc".data = Except.ok [⟨171⟩, ⟨12⟩] ∧
    Message.mk? "abc" = Except.ok ⟨[⟨171⟩, ⟨12⟩]⟩ :=
  ⟨rfl, rfl⟩

/-- C5: the claim fails on the code.  For a resolved category outside
{0,1,2,3} (raw first character "4" or "9") the factory falls through every
branch and silently returns `None` for every device type, instead of failing
with `UnknownMessageTypeError`. -/
theorem factory_unknown_category_silent (device_type : String) :
    factory "40" device_type 0 = FactoryResult.noneReturned ∧
    factory "99AB" device_type 0 = FactoryResult.noneReturned :=
  ⟨rfl, rfl⟩

/-- Witness for C5 at device_type = "LPB". -/
theorem factory_unknown_category_silent_witness :
    factory "40" "LPB" 0 = FactoryResult.noneReturned ∧
    factory "99AB" "LPB" 0 = FactoryResult.noneReturned :=
  factory_unknown_category_silent "LPB"

/-- C8: for every integer v in [0,255] the ByteUnit constructed from v
satisfies high_nibble * 16 + low_nibble = v, so the two nibble views
recompose to the original byte value. -/
theorem byteunit_nibbles_recompose (v : Nat) (hv : v ≤ 255) :
    ∃ b, Byte.mk? v = Except.ok b ∧ b.high_nibble * 16 + b.low_nibble = v := by
  refine ⟨⟨v⟩, ?_, ?_⟩
  · simp [Byte.mk?, hv]
  · simp only [Byte.high_nibble, Byte.low_nibble]
    omega

/-- Witness for C8 at v = 171 (0xAB). -/
theorem byteunit_nibbles_recompose_witness :
    ∃ b, Byte.mk? 171 = Except.ok b ∧
      b.high_nibble * 16 + b.low_nibble = 171 :=
  byteunit_nibbles_recompose 171 (by decide)

/-- C10: constructing a Message from the empty string succeeds with an empty
byte array, and each header accessor then fails at access time (the
`IndexError` of `self._byte_array[0]`, modelled as `none`), not at
construction time. -/
theorem empty_raw_message_accessors :
    Message.mk? "" = Except.ok ⟨[]⟩ ∧
    Message.x ⟨[]⟩ = none ∧
    Message.y ⟨[]⟩ = none ∧
    Message.z ⟨[]⟩ = none ∧
    Message.message_type ⟨[]⟩ = none :=
  ⟨rfl, rfl, rfl, rfl, rfl⟩

/-- C6: for every Frame built from a well-formed hex string with at least one
byte (its byte array has a first element b): x is that byte's high nibble and
lies in [0,15]; y is the floor of the low-nibble value divided by 2 and lies
in [0,7]; and z is true iff the low-nibble value is odd. -/
theorem frame_header_fields (raw_message : String) (m : Message) (b : Byte)
    (hm : Message.mk? raw_message = Except.ok m)
    (hb : m.byte_array.head? = some b) :
    m.x = some b.high_nibble ∧ b.high_nibble ≤ 15 ∧
    m.y = some (b.low_nibble / 2) ∧ b.low_nibble / 2 ≤ 7 ∧
    ∃ zv, m.z = some zv ∧ (zv = true ↔ b.low_nibble % 2 = 1) := by
  have hmem : b ∈ m.byte_array := by
    cases hl : m.byte_array with
    | nil => rw [hl] at hb; exact absurd hb (by simp)
    | cons a t =>
      rw [hl] at hb
      simp only [List.head?_cons, Option.some.injEq] at hb
      rw [← hb]
      exact List.mem_cons_self a t
  have hval : b.value ≤ 255 := by
    unfold Message.mk? at hm
    cases hcv : convertToBytes raw_message.data with
    | error e => simp only [hcv] at hm; exact Except.noConfusion hm
    | ok bs =>
      simp only [hcv, Except.ok.injEq] at hm
      subst hm
      exact convertToBytes_value_le raw_message.data bs hcv b hmem
  have hlow : b.low_nibble ≤ 15 := Nat.le_of_lt_succ (Nat.mod_lt _ (by omega))
  refine ⟨?_, ?_, ?_, ?_, ?_⟩
  · simp [Message.x, hb]
  · simp only [Byte.high_nibble]; omega
  · simp [Message.y, hb]
  · omega
  · refine ⟨if b.low_nibble % 2 = 0 then false else true, by simp [Message.z, hb], ?_⟩
    by_cases hpar : b.low_nibble % 2 = 0
    · rw [if_pos hpar]
      constructor
      · intro hf; exact Bool.noConfusion hf
      · intro h1; exact absurd h1 (by omega)
    · rw [if_neg hpar]
      constructor
      · intro _; omega
      · intro _; rfl

/-- Witness for C6 at the spec's scenario raw = "30AB": first byte 0x30,
x = 3, y = 0, z = false. -/
theorem frame_header_fields_witness :
    Message.x ⟨[⟨48⟩, ⟨171⟩]⟩ = some (Byte.high_nibble ⟨48⟩) ∧
    Byte.high_nibble ⟨48⟩ ≤ 15 ∧
    Message.y ⟨[⟨48⟩, ⟨171⟩]⟩ = some (Byte.low_nibble ⟨48⟩ / 2) ∧
    Byte.low_nibble ⟨48⟩ / 2 ≤ 7 ∧
    ∃ zv, Message.z ⟨[⟨48⟩, ⟨171⟩]⟩ = some zv ∧
      (zv = true ↔ Byte.low_nibble ⟨48⟩ % 2 = 1) :=
  frame_header_fields "30AB" ⟨[⟨48⟩, ⟨171⟩]⟩ ⟨48⟩ rfl rfl

/-- C7: counterexample — the round-trip as stated fails, because chunking is
not injective on even-length valid hex strings: "ab" and "AB" are distinct
valid inputs with identical chunkings, so no reassembly into "its two hex
digits" can reproduce both exactly. -/
theorem chunk_roundtrip_counterexample :
    convertToBytes "ab".data = Except.ok [⟨171⟩] ∧
    convertToBytes "AB".data = Except.ok [⟨171⟩] ∧
    ("ab" : String) ≠ "AB" :=
  ⟨rfl, rfl, by decide⟩

/-- C7 (amended): for every even-length string over the canonical uppercase
hex alphabet, chunking and then reassembling each unit into its two hex
digits (most-significant first, in order) reproduces the string exactly. -/
theorem chunk_reassemble_roundtrip :
    ∀ (l : List Char), l.length % 2 = 0 → (∀ c ∈ l, c ∈ upperHexDigits) →
      ∃ bs, convertToBytes l = Except.ok bs ∧ reassemble bs = l
  | [], _, _ => ⟨[], rfl, rfl⟩
  | [c], h1, _ => by simp at h1
  | c₁ :: c₂ :: rest, h1, h2 => by
    obtain ⟨v₁, hv₁, hb₁, hc₁⟩ := hexVal?_upper (h2 c₁ (by simp))
    obtain ⟨v₂, hv₂, hb₂, hc₂⟩ := hexVal?_upper (h2 c₂ (by simp))
    obtain ⟨bs, hbs, hre⟩ := chunk_reassemble_roundtrip rest
      (by simp only [List.length_cons] at h1; omega)
      (fun c hc => h2 c (by simp [hc]))
    refine ⟨⟨(0 * 16 + v₁) * 16 + v₂⟩ :: bs, ?_, ?_⟩
    · simp only [convertToBytes, intHex, parseHexAux, hv₁, hv₂, hbs]
      rw [Byte.mk?, if_pos (by omega)]
    · have e1 : Byte.high_nibble ⟨(0 * 16 + v₁) * 16 + v₂⟩ = v₁ := by
        simp only [Byte.high_nibble]; omega
      have e2 : Byte.low_nibble ⟨(0 * 16 + v₁) * 16 + v₂⟩ = v₂ := by
        simp only [Byte.low_nibble]; omega
      rw [reassemble_cons, e1, e2, hc₁, hc₂, hre]

/-- Witness for C7 (amended) at the spec's scenario raw = "30AB". -/
theorem chunk_reassemble_roundtrip_witness :
    ∃ bs, convertToBytes "30AB".data = Except.ok bs ∧
      reassemble bs = "30AB".data :=
  chunk_reassemble_roundtrip "30AB".data (by decide) (by decide)

/-- C9: on a well-formed hex input (even length, every character a valid hex
digit) the chunker succeeds, every constructed byte value lies in [0,255],
and the `RangeError` branch of ByteUnit construction is never reached. -/
theorem wellformed_hex_no_range_error (l : List Char)
    (h1 : l.length % 2 = 0) (h2 : ∀ c ∈ l, (hexVal? c).isSome) :
    (∃ bs, convertToBytes l = Except.ok bs ∧ ∀ b ∈ bs, b.value ≤ 255) ∧
    convertToBytes l ≠ Except.error DecodeErr.rangeError := by
  obtain ⟨bs, hbs⟩ := convertToBytes_total l h1 h2
  exact ⟨⟨bs, hbs, convertToBytes_value_le l bs hbs⟩, by simp [hbs]⟩

/-- Witness for C9 at the spec's scenario raw = "10FF". -/
theorem wellformed_hex_no_range_error_witness :
    (∃ bs, convertToBytes "10FF".data = Except.ok bs ∧
      ∀ b ∈ bs, b.value ≤ 255) ∧
    convertToBytes "10FF".data ≠ Except.error DecodeErr.rangeError :=
  wellformed_hex_no_range_error "10FF".data (by decide) (by decide)

end TapSensor
